import Mathlib

/-!
Shallow embedding of `src/Cemaden.js` (and the CLI wrapper
`src/example_cemaden.js`) of the `scriptPcdCemaden` repository.

Modelling conventions:
* JSON record values are `Option String` (`none` = JSON `null`); JavaScript
  renders both `null` and `undefined` as the empty string in a CSV cell
  (`dcp[element] == null ? "" : dcp[element]` uses loose equality).
* Timestamps are `Nat`: the millisecond instant that `moment(new Date (x))`
  derives from the record's `dataHora` text.  `compareDates` compares these
  instants at full resolution, which the `Nat` order captures exactly.
* `moment(...).format('MM/DD/YYYY HH:mm:ss')` and `.format('YYYYMMDD_HHmmss')`
  are modelled as decimal renderings of the instant (`momentFormatLine`,
  `momentFormatFile`): the claims depend only on the rendered text being a
  function of the instant that contains no `;` and no line terminator, which
  holds for the real format strings as well.
* The filesystem under `dataDir/<dcpName>` is a `StationState`:
  whether the directory exists, the parsed content of `lastDate.dat`
  (the watermark), and the `.dat` data files as (name, written chunks).
* Effects are recorded in an `Event` trace so that ordering (watermark write
  versus line appends) and counts (HTTP fetches, appended lines) can be
  stated.
-/

namespace Cemaden

/-- One decimal digit character: `Char.ofNat (48 + m % 10)` is `'0'`..`'9'`. -/
def digitChar (m : Nat) : Char :=
  Char.ofNat (48 + m % 10)

/-- Decimal digit list, recursing on a fuel counter so that the definition is
structural (always called with enough fuel). -/
def natDigitsAux : Nat → Nat → List Char
  | 0, _ => []
  | fuel + 1, n =>
    if n < 10 then [digitChar n] else natDigitsAux fuel (n / 10) ++ [digitChar n]

/-- Decimal digit list of a natural number (most significant first). -/
def natDigits (n : Nat) : List Char :=
  natDigitsAux (n + 1) n

/-- Models `moment(dcp.dataHora).format('MM/DD/YYYY HH:mm:ss')` (line 59):
a text rendering of the instant, supporting the facts the claims use
(function of the instant; no `;`, no newline). Calendar layout is not
modelled. -/
def momentFormatLine (n : Nat) : String :=
  String.mk (natDigits n)

/-- Models `moment(dcp.dataHora).format('YYYYMMDD_HHmmss')` (line 85),
used only to name the output file. -/
def momentFormatFile (n : Nat) : String :=
  String.mk (natDigits n)

/-- One record of the remote payload (a DCP reading).
`entries` are the JSON object's fields in key order (`none` = `null`);
`dataHora` is the millisecond instant derived from the record's
`dataHora` text by `new Date`/`moment` (string parsing is not re-modelled,
the instant is carried alongside the raw entries). -/
structure Dcp where
  entries : List (String × Option String)
  dataHora : Nat
deriving DecidableEq

def defaultDcp : Dcp := ⟨[], 0⟩

/-- First-match association lookup, as JavaScript property access on an
object built from unique JSON keys. `none` = the property is absent
(JS `undefined`). -/
def lookupEntry (key : String) : List (String × Option String) → Option (Option String)
  | [] => none
  | (k, v) :: rest => if k = key then some v else lookupEntry key rest

/-- Value of `dcp[element]` as rendered into a CSV cell (line 63):
`dcp[element] == null ? "" : dcp[element]` — both `null` and a missing
property render as the empty string. -/
def renderVal (dcp : Dcp) (element : String) : String :=
  match lookupEntry element dcp.entries with
  | some (some v) => v
  | _ => ""

/-- The value of `dcp.codestacao` as used in a strict `===` comparison
against a station code string (line 210): only a string value can match. -/
def codestacaoVal (dcp : Dcp) : Option String :=
  match lookupEntry "codestacao" dcp.entries with
  | some (some v) => some v
  | _ => none

/-- The value of `dcp.codestacao` as used in string concatenation
(lines 84, 259): JS renders `null`/`undefined` into the template. -/
def codestacaoStr (dcp : Dcp) : String :=
  match lookupEntry "codestacao" dcp.entries with
  | some (some v) => v
  | some none => "null"
  | none => "undefined"

/-- `buildKeys` (lines 52-54): `Object.keys(dcp)` minus the excluded names. -/
def buildKeys (dcp : Dcp) (excludeOptions : List String) : List String :=
  (dcp.entries.map Prod.fst).filter (fun element => decide (element ∉ excludeOptions))

/-- The loop body of `buildLine`/`buildHeader` (lines 61-64, 74-77): each
element is followed by `;`, except the last which is followed by `\r\n`;
an empty list produces nothing (the loop does not run). -/
def joinAll : List String → String
  | [] => ""
  | [x] => x ++ "\r\n"
  | x :: y :: rest => x ++ ";" ++ joinAll (y :: rest)

/-- `buildLine` (lines 56-67): formatted timestamp, `;`, then the values of
the (reversed) keys, `;`-separated, the last one followed by `\r\n`. -/
def buildLine (dcp : Dcp) (arrayKeys : List String) : String :=
  momentFormatLine dcp.dataHora ++ ";" ++ joinAll (arrayKeys.reverse.map (renderVal dcp))

/-- `buildHeader` (lines 69-80): `TIMESTAMP;` then the (reversed) key names,
`;`-separated, the last one followed by `\r\n`. The `station` argument is
accepted and ignored, as in the source. -/
def buildHeader (station : String) (arrayKeys : List String) : String :=
  "TIMESTAMP;" ++ joinAll arrayKeys.reverse

/-- `buildFileName` (lines 82-89): `<codestacao>_<YYYYMMDD_HHmmss>`. -/
def buildFileName (dcp : Dcp) : String :=
  codestacaoStr dcp ++ "_" ++ momentFormatFile dcp.dataHora

/-- `compareDates` (lines 104-113): `false` when the station date is the same
as or before the last-file date (`isSameOrBefore`), `true` otherwise. -/
def compareDates (stationDate lastFileDate : Nat) : Bool :=
  if stationDate ≤ lastFileDate then false else true

/-- The deduplication loop of `getData` (lines 283-287): keep, in order, the
readings whose `dataHora` passes `compareDates` against the stored
last date. -/
def dedupFilter : List Dcp → Nat → List Dcp
  | [], _ => []
  | dcp :: rest, lastDate =>
    if compareDates dcp.dataHora lastDate then dcp :: dedupFilter rest lastDate
    else dedupFilter rest lastDate

/-- Errors thrown by the embedded code (the source's exception classes plus a
transport failure rejected by axios). -/
inductive JsError where
  | transport
  | disabledDCP (code : String)
deriving DecidableEq

/-- Outcome of the HTTP GET a single `getDCPs` call performs. -/
inductive FetchOutcome where
  | ok (payload : List Dcp)
  | transportError
deriving DecidableEq

/-- The matching loop of `getDCPs` (lines 209-212): keep the payload elements
whose `codestacao` strictly equals the station code. -/
def matchStation (payload : List Dcp) (codEstacao : String) : List Dcp :=
  payload.filter (fun element => decide (codestacaoVal element = some codEstacao))

/-- `Cemaden.getDCPs` (lines 191-224) given the outcome of its HTTP GET:
a transport failure rejects with the transport error; an empty match
rejects with `DisabledDCP`; otherwise the matched readings resolve. -/
def getDCPs (codEstacao : String) (outcome : FetchOutcome) : Except JsError (List Dcp) :=
  match outcome with
  | FetchOutcome.transportError => Except.error JsError.transport
  | FetchOutcome.ok payload =>
    let pcdInfoArrary := matchStation payload codEstacao
    if pcdInfoArrary.isEmpty then Except.error (JsError.disabledDCP codEstacao)
    else Except.ok pcdInfoArrary

/-- On-disk state of one station directory `dataDir/<dcpName>`:
whether the directory exists, the parsed content of `lastDate.dat`
(`none` = the file does not exist), and the `.dat` data files as
(file name, list of written chunks: the header and the appended lines). -/
structure StationState where
  dirExists : Bool
  lastDate : Option Nat
  dataFiles : List (String × List String)
deriving DecidableEq

/-- The state of a station directory before any ingestion. -/
def initState : StationState := ⟨false, none, []⟩

/-- Observable effects of a cycle, in execution order. -/
inductive Event where
  | fetch (codEstacao : String)
  | writeWatermark (station : String) (t : Nat)
  | writeHeader (file : String) (header : String)
  | appendLine (file : String) (line : String)
  | crash (station : String)
deriving DecidableEq

def lookupFile (fileName : String) : List (String × List String) → Option (List String)
  | [] => none
  | (n, c) :: rest => if n = fileName then some c else lookupFile fileName rest

def updateFile (fileName : String) (content : List String) :
    List (String × List String) → List (String × List String)
  | [] => []
  | (n, c) :: rest =>
    if n = fileName then (n, content) :: rest else (n, c) :: updateFile fileName content rest

/-- `openFile` (lines 29-50) followed by the `fs.writeSync` append loop:
open in append mode; when the file is new or empty, first write the
default data (the header); then append the given lines in order. -/
def openFile (files : List (String × List String)) (fileName : String)
    (defaultData : String) (lines : List String) :
    List (String × List String) × List Event :=
  match lookupFile fileName files with
  | none =>
    (files ++ [(fileName, defaultData :: lines)],
     Event.writeHeader fileName defaultData :: lines.map (Event.appendLine fileName))
  | some c =>
    if c.isEmpty then
      (updateFile fileName (defaultData :: lines) files,
       Event.writeHeader fileName defaultData :: lines.map (Event.appendLine fileName))
    else
      (updateFile fileName (c ++ lines) files, lines.map (Event.appendLine fileName))

/-- The write sequence shared by both branches of `getData`
(lines 298-315 and 320-337): build the header from the first record of the
batch, the file name from the last, open the file (writing the header when
new/empty) and append one `buildLine` per record of the batch.
`failAppend` injects a write failure at the first line-append
`fs.writeSync` (line 311/333): the header write of `openFile` has
succeeded, no line is appended, and the thrown error is reported in the
third component. -/
def writeBatch (excludeOptions : List String) (failAppend : Bool)
    (files : List (String × List String)) (station : String)
    (firstDcp lastDcp : Dcp) (batch : List Dcp) :
    List (String × List String) × List Event × Bool :=
  let header := buildHeader station (buildKeys firstDcp excludeOptions)
  let fileName := buildFileName lastDcp
  let lines := batch.map (fun d => buildLine d (buildKeys d excludeOptions))
  let written := if failAppend then [] else lines
  let opened := openFile files fileName header written
  (opened.1, opened.2, failAppend)

/-- Result of the per-station body of `getData`'s loop: the new directory
state, the effects, whether an exception was thrown and caught by the
per-station `catch` (lines 342-348), and whether the process crashed
(an exception thrown inside an `fs` callback, which no `catch` sees). -/
structure StepResult where
  state : StationState
  events : List Event
  threw : Bool
  crashed : Bool
deriving DecidableEq

/-- The per-station body of `Cemaden.getData` (lines 249-341) applied to the
matched readings `dcps` of one station, acting on that station's directory
state.  Faithful to the source:
* directory absent (lines 264-272): create it and create `lastDate.dat`
  containing the last reading's `dataHora`; the directory listing stays
  empty, so the full batch is then written (lines 318-339);
* directory present with a non-empty listing (lines 278-316): read
  `lastDate.dat` (if it is missing, `getLastDate`'s callback throws
  uncaught: modelled as `crashed`), filter by `compareDates`, and when the
  filtered batch is non-empty FIRST overwrite `lastDate.dat` with the last
  filtered reading's `dataHora` (line 292) and only then write the lines
  (lines 305-312);
* directory present but listed empty: write the full batch without
  touching any watermark. -/
def stationStep (excludeOptions : List String) (failAppend : Bool)
    (s : StationState) (dcps : List Dcp) : StepResult :=
  match dcps with
  | [] => ⟨s, [], false, false⟩
  | d0 :: rest =>
    let lastDcp := (d0 :: rest).getLastD d0
    let dcpName := codestacaoStr lastDcp
    if s.dirExists then
      if s.lastDate.isSome || !s.dataFiles.isEmpty then
        match s.lastDate with
        | none => ⟨s, [Event.crash dcpName], false, true⟩
        | some lastDate =>
          let dcpsToSave := dedupFilter (d0 :: rest) lastDate
          if dcpsToSave.isEmpty then ⟨s, [], false, false⟩
          else
            let lastSave := dcpsToSave.getLastD d0
            let wb := writeBatch excludeOptions failAppend s.dataFiles dcpName
              (dcpsToSave.headD d0) lastSave dcpsToSave
            ⟨{ s with lastDate := some lastSave.dataHora, dataFiles := wb.1 },
              Event.writeWatermark dcpName lastSave.dataHora :: wb.2.1, wb.2.2, false⟩
      else
        let wb := writeBatch excludeOptions failAppend s.dataFiles dcpName d0 lastDcp (d0 :: rest)
        ⟨{ s with dataFiles := wb.1 }, wb.2.1, wb.2.2, false⟩
    else
      let s1 : StationState := ⟨true, some lastDcp.dataHora, s.dataFiles⟩
      let wb := writeBatch excludeOptions failAppend s1.dataFiles dcpName d0 lastDcp (d0 :: rest)
      ⟨⟨true, some lastDcp.dataHora, wb.1⟩,
        Event.writeWatermark dcpName lastDcp.dataHora :: wb.2.1, wb.2.2, false⟩

/-- Pointwise update of the per-directory filesystem map. -/
def updateFs (fs : String → StationState) (name : String) (s : StationState) :
    String → StationState :=
  fun n => if n = name then s else fs n

/-- Result of one `Cemaden.getData` cycle: the filesystem (station directory
states indexed by directory name), the resolved `outputDCP` list, the
effect trace, and whether the process crashed mid-cycle. -/
structure CycleResult where
  fs : String → StationState
  output : List (List Dcp)
  trace : List Event
  crashed : Bool

/-- `Cemaden.getData` (lines 237-352).  Each configured station is given the
outcome of the HTTP GET its own `getDCPs` call performs (the source calls
`client.get(this.config.url, ...)` once in every loop iteration, so one
fetch happens per station).  A rejected `getDCPs` (transport error or
`DisabledDCP`) is caught by the per-station `catch` and the loop
continues; a successful station appends its matched batch to `outputDCP`
unless its save threw (the `catch` then skips `outputDCP.push`). -/
def getData (excludeOptions : List String) (failAppend : Bool) :
    List (String × FetchOutcome) → (String → StationState) → CycleResult
  | [], fs => ⟨fs, [], [], false⟩
  | (codEstacao, outcome) :: rest, fs =>
    match getDCPs codEstacao outcome with
    | Except.error _ =>
      let r := getData excludeOptions failAppend rest fs
      ⟨r.fs, r.output, Event.fetch codEstacao :: r.trace, r.crashed⟩
    | Except.ok dcps =>
      let dcpName := codestacaoStr (dcps.getLastD defaultDcp)
      let st := stationStep excludeOptions failAppend (fs dcpName) dcps
      let fs2 := updateFs fs dcpName st.state
      if st.crashed then
        ⟨fs2, [], Event.fetch codEstacao :: st.events, true⟩
      else
        let r := getData excludeOptions failAppend rest fs2
        ⟨r.fs, if st.threw then r.output else dcps :: r.output,
          Event.fetch codEstacao :: (st.events ++ r.trace), r.crashed⟩

/-- A sequence of save operations on one station: fold the per-station body
over successive matched batches (the per-station slice of successive
cycles). -/
def runSaves (excludeOptions : List String) (s0 : StationState)
    (batches : List (List Dcp)) : StationState :=
  batches.foldl (fun s m => (stationStep excludeOptions false s m).state) s0

/-- Result of the CLI wrapper `example_cemaden.js`: the count it prints
(`none` on the error path) and the process exit code. -/
structure CliResult where
  printedCount : Option Nat
  exitCode : Nat
deriving DecidableEq

/-- `example_cemaden.js` (lines 8-16): on resolution print
`Saved ${dcps.length} DCPs` and exit 0; on rejection print the error and
exit 1. -/
def exampleCemaden (result : Except JsError (List (List Dcp))) : CliResult :=
  match result with
  | Except.ok dcps => ⟨some dcps.length, 0⟩
  | Except.error _ => ⟨none, 1⟩

/-- Number of line-append effects in a trace. -/
def countAppends (trace : List Event) : Nat :=
  trace.countP (fun e => match e with | Event.appendLine _ _ => true | _ => false)

/-- Number of HTTP fetches in a trace. -/
def countFetches (trace : List Event) : Nat :=
  trace.countP (fun e => match e with | Event.fetch _ => true | _ => false)

/-- Number of `;` delimiters in a string. -/
def countSemi (s : String) : Nat :=
  s.data.count ';'

/-- Number of delimited values of one `;`-separated row. -/
def numFields (s : String) : Nat :=
  countSemi s + 1

/-- Well-formedness of a station directory state as the code itself creates
them: `lastDate.dat` lives inside the directory (no directory, no
watermark), and a directory created by the code always holds a
`lastDate.dat`. -/
def goodState (s : StationState) : Prop :=
  (s.dirExists = true → s.lastDate.isSome = true) ∧
  (s.dirExists = false → s.lastDate = none)

instance (s : StationState) : Decidable (goodState s) := by
  unfold goodState; infer_instance

/-- Order on optional watermarks: an absent watermark is below everything. -/
def optLe : Option Nat → Option Nat → Prop
  | none, _ => True
  | some _, none => False
  | some a, some b => a ≤ b

instance (a b : Option Nat) : Decidable (optLe a b) := by
  unfold optLe; rcases a with _ | a <;> rcases b with _ | b <;> infer_instance

/-- The station directory already reflects every reading of `dcps`: it exists
and its watermark is at or above all their timestamps. -/
def saturated (s : StationState) (dcps : List Dcp) : Prop :=
  s.dirExists = true ∧ ∃ w, s.lastDate = some w ∧ ∀ d ∈ dcps, d.dataHora ≤ w

/-- The last reading of a batch carries its maximal timestamp (the spec's
assumption that the remote payload is ordered non-decreasingly by
timestamp). -/
def lastMax (dcps : List Dcp) : Prop :=
  ∀ d ∈ dcps, d.dataHora ≤ (dcps.getLastD defaultDcp).dataHora

instance (dcps : List Dcp) : Decidable (lastMax dcps) := by
  unfold lastMax; infer_instance

/-- The matched batch of one (station, fetch outcome) pair, empty when
`getDCPs` rejects. -/
def matchedOf (p : String × FetchOutcome) : List Dcp :=
  match getDCPs p.1 p.2 with
  | Except.ok m => m
  | Except.error _ => []

/-- The directory name a station's save writes under: the `codestacao` of the
last matched reading. -/
def dirNameOf (p : String × FetchOutcome) : String :=
  codestacaoStr ((matchedOf p).getLastD defaultDcp)

end Cemaden

namespace Cemaden

/-! ### Basic facts about the pure helpers -/

theorem compareDates_eq (a b : Nat) : compareDates a b = decide (b < a) := by
  by_cases h : a ≤ b <;> simp [compareDates, h] <;> omega

theorem dedupFilter_eq_filter (l : List Dcp) (w : Nat) :
    dedupFilter l w = l.filter (fun d => decide (w < d.dataHora)) := by
  induction l with
  | nil => rfl
  | cons d rest ih =>
    by_cases h : w < d.dataHora <;>
      simp [dedupFilter, compareDates_eq, List.filter_cons, h, ih]

theorem mem_dedupFilter {l : List Dcp} {w : Nat} {d : Dcp} :
    d ∈ dedupFilter l w ↔ d ∈ l ∧ w < d.dataHora := by
  simp [dedupFilter_eq_filter, List.mem_filter]

theorem dedupFilter_eq_nil {l : List Dcp} {w : Nat} :
    dedupFilter l w = [] ↔ ∀ d ∈ l, d.dataHora ≤ w := by
  rw [dedupFilter_eq_filter, List.filter_eq_nil_iff]
  constructor <;> intro h d hd <;> have := h d hd <;> simp at this ⊢ <;> omega

theorem getLastD_mem {α : Type} {l : List α} (d : α) (h : l ≠ []) : l.getLastD d ∈ l := by
  induction l generalizing d with
  | nil => exact absurd rfl h
  | cons a t ih =>
    rw [List.getLastD_cons]
    cases t with
    | nil => simp
    | cons b t2 => exact List.mem_cons_of_mem a (ih a (by simp))

theorem getLastD_irrel {α : Type} {l : List α} (a b : α) (h : l ≠ []) :
    l.getLastD a = l.getLastD b := by
  rw [List.getLastD_eq_getLast?, List.getLastD_eq_getLast?]
  cases hl : l.getLast? with
  | none => exact absurd (List.getLast?_eq_none_iff.mp hl) h
  | some x => rfl

theorem getLastD_filter {α : Type} (p : α → Bool) (l : List α) (d : α)
    (hp : p (l.getLastD d) = true) (hne : l.filter p ≠ []) :
    (l.filter p).getLastD d = l.getLastD d := by
  induction l generalizing d with
  | nil => simp [List.filter_nil] at hne
  | cons a t ih =>
    rw [List.getLastD_cons] at hp ⊢
    cases t with
    | nil =>
      simp only [List.getLastD_nil] at hp ⊢
      simp [List.filter_cons, hp]
    | cons b t2 =>
      have hft : (b :: t2).filter p ≠ [] := by
        intro hcon
        have hmem : (b :: t2).getLastD a ∈ (b :: t2).filter p :=
          List.mem_filter.mpr ⟨getLastD_mem a (by simp), hp⟩
        rw [hcon] at hmem
        exact List.not_mem_nil _ hmem
      have hih := ih a hp hft
      by_cases hpa : p a = true
      · rw [List.filter_cons_of_pos hpa, List.getLastD_cons]
        exact hih
      · rw [List.filter_cons_of_neg (by simpa using hpa), getLastD_irrel d a hft]
        exact hih

theorem dedupFilter_getLastD {l : List Dcp} {w : Nat} (d : Dcp)
    (hmax : lastMax l) (hne : dedupFilter l w ≠ []) :
    (dedupFilter l w).getLastD d = l.getLastD d := by
  rcases List.exists_mem_of_ne_nil _ hne with ⟨x, hx⟩
  rcases mem_dedupFilter.mp hx with ⟨hxl, hxw⟩
  have hlne : l ≠ [] := by rintro rfl; exact List.not_mem_nil _ hxl
  have hlast : w < (l.getLastD d).dataHora := by
    have h1 : x.dataHora ≤ (l.getLastD defaultDcp).dataHora := hmax x hxl
    rw [getLastD_irrel defaultDcp d hlne] at h1
    omega
  rw [dedupFilter_eq_filter] at hne ⊢
  exact getLastD_filter _ l d (by simpa using hlast) hne

theorem dedupFilter_mono {l : List Dcp} {w : Nat} (d : Dcp)
    (hne : dedupFilter l w ≠ []) :
    w < ((dedupFilter l w).getLastD d).dataHora := by
  have hmem : (dedupFilter l w).getLastD d ∈ dedupFilter l w := getLastD_mem d hne
  exact (mem_dedupFilter.mp hmem).2

/-! ### Branch equations for the per-station body -/

theorem stationStep_nil (ex : List String) (f : Bool) (s : StationState) :
    stationStep ex f s [] = ⟨s, [], false, false⟩ := rfl

theorem stationStep_create (ex : List String) (f : Bool) (ld : Option Nat)
    (fl : List (String × List String)) (d0 : Dcp) (rest : List Dcp) :
    stationStep ex f ⟨false, ld, fl⟩ (d0 :: rest) =
      ⟨⟨true, some ((d0 :: rest).getLastD d0).dataHora,
          (writeBatch ex f fl (codestacaoStr ((d0 :: rest).getLastD d0)) d0
            ((d0 :: rest).getLastD d0) (d0 :: rest)).1⟩,
        Event.writeWatermark (codestacaoStr ((d0 :: rest).getLastD d0))
            ((d0 :: rest).getLastD d0).dataHora ::
          (writeBatch ex f fl (codestacaoStr ((d0 :: rest).getLastD d0)) d0
            ((d0 :: rest).getLastD d0) (d0 :: rest)).2.1,
        (writeBatch ex f fl (codestacaoStr ((d0 :: rest).getLastD d0)) d0
          ((d0 :: rest).getLastD d0) (d0 :: rest)).2.2, false⟩ := rfl

theorem stationStep_some (ex : List String) (f : Bool) (w : Nat)
    (fl : List (String × List String)) (d0 : Dcp) (rest : List Dcp) :
    stationStep ex f ⟨true, some w, fl⟩ (d0 :: rest) =
      if (dedupFilter (d0 :: rest) w).isEmpty then ⟨⟨true, some w, fl⟩, [], false, false⟩
      else
        ⟨⟨true, some ((dedupFilter (d0 :: rest) w).getLastD d0).dataHora,
            (writeBatch ex f fl (codestacaoStr ((d0 :: rest).getLastD d0))
              ((dedupFilter (d0 :: rest) w).headD d0)
              ((dedupFilter (d0 :: rest) w).getLastD d0) (dedupFilter (d0 :: rest) w)).1⟩,
          Event.writeWatermark (codestacaoStr ((d0 :: rest).getLastD d0))
              ((dedupFilter (d0 :: rest) w).getLastD d0).dataHora ::
            (writeBatch ex f fl (codestacaoStr ((d0 :: rest).getLastD d0))
              ((dedupFilter (d0 :: rest) w).headD d0)
              ((dedupFilter (d0 :: rest) w).getLastD d0) (dedupFilter (d0 :: rest) w)).2.1,
          (writeBatch ex f fl (codestacaoStr ((d0 :: rest).getLastD d0))
            ((dedupFilter (d0 :: rest) w).headD d0)
            ((dedupFilter (d0 :: rest) w).getLastD d0) (dedupFilter (d0 :: rest) w)).2.2,
          false⟩ := rfl

end Cemaden

namespace Cemaden

/-! ### Invariant lemmas for the per-station body -/

theorem goodState_initState : goodState initState := by
  constructor <;> intro h <;> simp [initState] at h ⊢

theorem stationStep_threw (ex : List String) (s : StationState) (m : List Dcp) :
    (stationStep ex false s m).threw = false := by
  rcases s with ⟨dir, ld, fl⟩
  cases m with
  | nil => rfl
  | cons d0 rest =>
    cases dir with
    | false => simp [stationStep_create, writeBatch]
    | true =>
      cases ld with
      | none =>
        by_cases hfl : fl.isEmpty <;> simp [stationStep, hfl, writeBatch]
      | some w =>
        rw [stationStep_some]
        by_cases hD : (dedupFilter (d0 :: rest) w).isEmpty <;> simp [hD, writeBatch]

theorem stationStep_good (ex : List String) (f : Bool) (s : StationState) (m : List Dcp)
    (hg : goodState s) : goodState (stationStep ex f s m).state := by
  rcases s with ⟨dir, ld, fl⟩
  cases m with
  | nil => exact hg
  | cons d0 rest =>
    cases dir with
    | false =>
      rw [stationStep_create]
      exact ⟨fun _ => rfl, fun h => by simp at h⟩
    | true =>
      cases ld with
      | none => exact absurd (hg.1 rfl) (by simp)
      | some w =>
        rw [stationStep_some]
        by_cases hD : (dedupFilter (d0 :: rest) w).isEmpty
        · rw [if_pos hD]; exact hg
        · rw [if_neg hD]
          exact ⟨fun _ => rfl, fun h => by simp at h⟩

theorem stationStep_nocrash (ex : List String) (f : Bool) (s : StationState) (m : List Dcp)
    (hg : goodState s) : (stationStep ex f s m).crashed = false := by
  rcases s with ⟨dir, ld, fl⟩
  cases m with
  | nil => rfl
  | cons d0 rest =>
    cases dir with
    | false => rw [stationStep_create]
    | true =>
      cases ld with
      | none => exact absurd (hg.1 rfl) (by simp)
      | some w =>
        rw [stationStep_some]
        by_cases hD : (dedupFilter (d0 :: rest) w).isEmpty
        · rw [if_pos hD]
        · rw [if_neg hD]

theorem optLe_refl (a : Option Nat) : optLe a a := by
  cases a <;> simp [optLe]

theorem stationStep_mono (ex : List String) (f : Bool) (s : StationState) (m : List Dcp)
    (hg : goodState s) : optLe s.lastDate (stationStep ex f s m).state.lastDate := by
  rcases s with ⟨dir, ld, fl⟩
  cases m with
  | nil => exact optLe_refl _
  | cons d0 rest =>
    cases dir with
    | false =>
      have hld : ld = none := hg.2 rfl
      subst hld
      rw [stationStep_create]
      trivial
    | true =>
      cases ld with
      | none => exact absurd (hg.1 rfl) (by simp)
      | some w =>
        rw [stationStep_some]
        by_cases hD : (dedupFilter (d0 :: rest) w).isEmpty
        · rw [if_pos hD]; exact optLe_refl _
        · rw [if_neg hD]
          have hne : dedupFilter (d0 :: rest) w ≠ [] := by
            simpa [List.isEmpty_iff] using hD
          have := dedupFilter_mono d0 hne
          simp only [optLe]
          omega

theorem stationStep_saturates (ex : List String) (f : Bool) (s : StationState)
    (d0 : Dcp) (rest : List Dcp) (hg : goodState s) (hmax : lastMax (d0 :: rest)) :
    saturated (stationStep ex f s (d0 :: rest)).state (d0 :: rest) := by
  rcases s with ⟨dir, ld, fl⟩
  cases dir with
  | false =>
    rw [stationStep_create]
    refine ⟨rfl, ((d0 :: rest).getLastD d0).dataHora, rfl, fun d hd => ?_⟩
    have := hmax d hd
    rwa [getLastD_irrel defaultDcp d0 (by simp)] at this
  | true =>
    cases ld with
    | none => exact absurd (hg.1 rfl) (by simp)
    | some w =>
      rw [stationStep_some]
      by_cases hD : (dedupFilter (d0 :: rest) w).isEmpty
      · rw [if_pos hD]
        have hnil : dedupFilter (d0 :: rest) w = [] := by simpa [List.isEmpty_iff] using hD
        exact ⟨rfl, w, rfl, dedupFilter_eq_nil.mp hnil⟩
      · rw [if_neg hD]
        have hne : dedupFilter (d0 :: rest) w ≠ [] := by simpa [List.isEmpty_iff] using hD
        refine ⟨rfl, _, rfl, fun d hd => ?_⟩
        rw [dedupFilter_getLastD d0 hmax hne]
        have := hmax d hd
        rwa [getLastD_irrel defaultDcp d0 (by simp)] at this

theorem stationStep_preserves_saturated (ex : List String) (f : Bool) (s : StationState)
    (m m2 : List Dcp) (hs : saturated s m) :
    saturated (stationStep ex f s m2).state m := by
  rcases hs with ⟨hdir, w, hw, hbound⟩
  rcases s with ⟨dir, ld, fl⟩
  cases hdir
  cases hw
  cases m2 with
  | nil => exact ⟨rfl, w, rfl, hbound⟩
  | cons d0 rest =>
    rw [stationStep_some]
    by_cases hD : (dedupFilter (d0 :: rest) w).isEmpty
    · rw [if_pos hD]; exact ⟨rfl, w, rfl, hbound⟩
    · rw [if_neg hD]
      have hne : dedupFilter (d0 :: rest) w ≠ [] := by simpa [List.isEmpty_iff] using hD
      have hlt := dedupFilter_mono d0 hne
      exact ⟨rfl, _, rfl, fun d hd => le_trans (hbound d hd) (le_of_lt hlt)⟩

theorem stationStep_noop (ex : List String) (f : Bool) (s : StationState) (m : List Dcp)
    (hs : saturated s m) : stationStep ex f s m = ⟨s, [], false, false⟩ := by
  rcases hs with ⟨hdir, w, hw, hbound⟩
  rcases s with ⟨dir, ld, fl⟩
  cases hdir
  cases hw
  cases m with
  | nil => rfl
  | cons d0 rest =>
    rw [stationStep_some]
    have hnil : dedupFilter (d0 :: rest) w = [] := dedupFilter_eq_nil.mpr hbound
    rw [if_pos (by simp [hnil])]

end Cemaden

namespace Cemaden

/-! ### Facts about the matched batches and the effect counters -/

theorem getDCPs_ok_ne_nil {c : String} {o : FetchOutcome} {m : List Dcp}
    (h : getDCPs c o = Except.ok m) : m ≠ [] := by
  cases o with
  | transportError => simp [getDCPs] at h
  | ok payload =>
    by_cases he : (matchStation payload c).isEmpty
    · simp [getDCPs, he] at h
    · simp [getDCPs, he] at h
      rw [← h]
      simpa [List.isEmpty_iff] using he

theorem matchedOf_ok {c : String} {o : FetchOutcome} {m : List Dcp}
    (h : getDCPs c o = Except.ok m) : matchedOf (c, o) = m := by
  simp [matchedOf, h]

theorem matchedOf_error {c : String} {o : FetchOutcome} {e : JsError}
    (h : getDCPs c o = Except.error e) : matchedOf (c, o) = [] := by
  simp [matchedOf, h]

theorem dirNameOf_ok {c : String} {o : FetchOutcome} {m : List Dcp}
    (h : getDCPs c o = Except.ok m) :
    dirNameOf (c, o) = codestacaoStr (m.getLastD defaultDcp) := by
  simp [dirNameOf, matchedOf_ok h]

theorem countAppends_nil : countAppends [] = 0 := rfl

theorem countAppends_fetch_cons (c : String) (tr : List Event) :
    countAppends (Event.fetch c :: tr) = countAppends tr := by
  simp [countAppends, List.countP_cons]

theorem countFetches_fetch_cons (c : String) (tr : List Event) :
    countFetches (Event.fetch c :: tr) = countFetches tr + 1 := by
  simp [countFetches, List.countP_cons]

theorem countFetches_append (tr tr2 : List Event) :
    countFetches (tr ++ tr2) = countFetches tr + countFetches tr2 := by
  simp [countFetches, List.countP_append]

theorem openFile_no_fetch (files : List (String × List String))
    (fileName defaultData : String) (lines : List String) :
    countFetches (openFile files fileName defaultData lines).2 = 0 := by
  unfold countFetches openFile
  rw [List.countP_eq_zero]
  intro e he
  cases hl : lookupFile fileName files with
  | none =>
    rw [hl] at he
    simp only [List.mem_cons, List.mem_map] at he
    rcases he with rfl | ⟨l, _, rfl⟩ <;> simp
  | some c =>
    rw [hl] at he
    by_cases hc : c.isEmpty <;> simp only [hc] at he <;>
      simp only [Bool.false_eq_true, if_false, if_true, List.mem_cons, List.mem_map] at he
    · rcases he with rfl | ⟨l, _, rfl⟩ <;> simp
    · rcases he with ⟨l, _, rfl⟩; simp

theorem stationStep_no_fetch (ex : List String) (f : Bool) (s : StationState)
    (m : List Dcp) : countFetches (stationStep ex f s m).events = 0 := by
  rcases s with ⟨dir, ld, fl⟩
  cases m with
  | nil => rfl
  | cons d0 rest =>
    cases dir with
    | false =>
      rw [stationStep_create]
      simp only [writeBatch]
      rw [show ∀ a tr, countFetches (Event.writeWatermark a
        ((d0 :: rest).getLastD d0).dataHora :: tr) = countFetches tr from
        fun a tr => by simp [countFetches, List.countP_cons]]
      exact openFile_no_fetch _ _ _ _
    | true =>
      cases ld with
      | none =>
        by_cases hfl : fl.isEmpty <;>
          simp only [stationStep, Bool.or_eq_true, Option.isSome_none, hfl] <;>
          simp [writeBatch, countFetches, List.countP_cons, openFile_no_fetch]
        · have h0 := openFile_no_fetch fl
            (buildFileName ((d0 :: rest).getLastD d0))
            (buildHeader (codestacaoStr ((d0 :: rest).getLastD d0))
              (buildKeys d0 ex))
            (if f then [] else (d0 :: rest).map (fun d => buildLine d (buildKeys d ex)))
          simpa [countFetches] using h0
      | some w =>
        rw [stationStep_some]
        by_cases hD : (dedupFilter (d0 :: rest) w).isEmpty
        · rw [if_pos hD]; rfl
        · rw [if_neg hD]
          simp only [writeBatch]
          rw [show ∀ a t tr, countFetches (Event.writeWatermark a t :: tr) = countFetches tr from
            fun a t tr => by simp [countFetches, List.countP_cons]]
          exact openFile_no_fetch _ _ _ _

end Cemaden

namespace Cemaden

/-! ### Unfolding equations and invariants for the ingestion cycle -/

theorem getData_nil (ex : List String) (f : Bool) (fs : String → StationState) :
    getData ex f [] fs = ⟨fs, [], [], false⟩ := rfl

theorem getData_cons_error (ex : List String) (f : Bool) (c : String) (o : FetchOutcome)
    (rest : List (String × FetchOutcome)) (fs : String → StationState) (e : JsError)
    (h : getDCPs c o = Except.error e) :
    getData ex f ((c, o) :: rest) fs =
      ⟨(getData ex f rest fs).fs, (getData ex f rest fs).output,
       Event.fetch c :: (getData ex f rest fs).trace, (getData ex f rest fs).crashed⟩ := by
  simp only [getData, h]

theorem getData_cons_ok (ex : List String) (f : Bool) (c : String) (o : FetchOutcome)
    (rest : List (String × FetchOutcome)) (fs : String → StationState) (m : List Dcp)
    (h : getDCPs c o = Except.ok m)
    (hcr : (stationStep ex f (fs (codestacaoStr (m.getLastD defaultDcp))) m).crashed = false) :
    getData ex f ((c, o) :: rest) fs =
      ⟨(getData ex f rest (updateFs fs (codestacaoStr (m.getLastD defaultDcp))
          (stationStep ex f (fs (codestacaoStr (m.getLastD defaultDcp))) m).state)).fs,
       if (stationStep ex f (fs (codestacaoStr (m.getLastD defaultDcp))) m).threw
       then (getData ex f rest (updateFs fs (codestacaoStr (m.getLastD defaultDcp))
          (stationStep ex f (fs (codestacaoStr (m.getLastD defaultDcp))) m).state)).output
       else m :: (getData ex f rest (updateFs fs (codestacaoStr (m.getLastD defaultDcp))
          (stationStep ex f (fs (codestacaoStr (m.getLastD defaultDcp))) m).state)).output,
       Event.fetch c :: ((stationStep ex f (fs (codestacaoStr (m.getLastD defaultDcp))) m).events ++
         (getData ex f rest (updateFs fs (codestacaoStr (m.getLastD defaultDcp))
          (stationStep ex f (fs (codestacaoStr (m.getLastD defaultDcp))) m).state)).trace),
       (getData ex f rest (updateFs fs (codestacaoStr (m.getLastD defaultDcp))
          (stationStep ex f (fs (codestacaoStr (m.getLastD defaultDcp))) m).state)).crashed⟩ := by
  simp only [getData, h]
  rw [if_neg (by rw [hcr]; simp)]

theorem updateFs_self (fs : String → StationState) (k : String) :
    updateFs fs k (fs k) = fs := by
  funext n
  by_cases h : n = k
  · subst h; simp [updateFs]
  · simp [updateFs, h]

theorem updateFs_good (fs : String → StationState) (k : String) (s : StationState)
    (hg : ∀ j, goodState (fs j)) (hs : goodState s) :
    ∀ j, goodState (updateFs fs k s j) := by
  intro j
  by_cases h : j = k
  · subst h; simpa [updateFs] using hs
  · simpa [updateFs, h] using hg j

theorem getData_good (ex : List String) (f : Bool) (pairs : List (String × FetchOutcome)) :
    ∀ fs : String → StationState, (∀ k, goodState (fs k)) →
      ∀ k, goodState ((getData ex f pairs fs).fs k) := by
  induction pairs with
  | nil => intro fs hg k; exact hg k
  | cons q rest ih =>
    intro fs hg k
    rcases q with ⟨c, o⟩
    cases h : getDCPs c o with
    | error e => rw [getData_cons_error ex f c o rest fs e h]; exact ih fs hg k
    | ok m =>
      have hcr := stationStep_nocrash ex f (fs (codestacaoStr (m.getLastD defaultDcp))) m (hg _)
      rw [getData_cons_ok ex f c o rest fs m h hcr]
      exact ih _ (updateFs_good _ _ _ hg (stationStep_good _ _ _ _ (hg _))) k

theorem getData_nocrash (ex : List String) (f : Bool) (pairs : List (String × FetchOutcome)) :
    ∀ fs : String → StationState, (∀ k, goodState (fs k)) →
      (getData ex f pairs fs).crashed = false := by
  induction pairs with
  | nil => intro fs hg; rfl
  | cons q rest ih =>
    intro fs hg
    rcases q with ⟨c, o⟩
    cases h : getDCPs c o with
    | error e => rw [getData_cons_error ex f c o rest fs e h]; exact ih fs hg
    | ok m =>
      have hcr := stationStep_nocrash ex f (fs (codestacaoStr (m.getLastD defaultDcp))) m (hg _)
      rw [getData_cons_ok ex f c o rest fs m h hcr]
      exact ih _ (updateFs_good _ _ _ hg (stationStep_good _ _ _ _ (hg _)))

theorem updateFs_preserves_saturated (ex : List String) (f : Bool)
    (fs : String → StationState) (dn : String) (mm : List Dcp) (k : String) (m : List Dcp)
    (hs : saturated (fs k) m) :
    saturated ((updateFs fs dn (stationStep ex f (fs dn) mm).state) k) m := by
  by_cases hk : k = dn
  · subst hk
    simpa [updateFs] using stationStep_preserves_saturated ex f (fs k) m mm hs
  · simpa [updateFs, hk] using hs

theorem getData_preserves_saturated (ex : List String) (f : Bool)
    (pairs : List (String × FetchOutcome)) :
    ∀ (fs : String → StationState) (k : String) (m : List Dcp),
      saturated (fs k) m → saturated ((getData ex f pairs fs).fs k) m := by
  induction pairs with
  | nil => intro fs k m hs; exact hs
  | cons q rest ih =>
    intro fs k m hs
    rcases q with ⟨c, o⟩
    cases h : getDCPs c o with
    | error e => rw [getData_cons_error ex f c o rest fs e h]; exact ih fs k m hs
    | ok mm =>
      by_cases hcr : (stationStep ex f (fs (codestacaoStr (mm.getLastD defaultDcp))) mm).crashed
      · simp only [getData, h]
        rw [if_pos hcr]
        exact updateFs_preserves_saturated ex f fs _ mm k m hs
      · rw [getData_cons_ok ex f c o rest fs mm h (by simpa using hcr)]
        exact ih _ k m (updateFs_preserves_saturated ex f fs _ mm k m hs)

theorem getData_establishes (ex : List String) (f : Bool)
    (pairs : List (String × FetchOutcome)) :
    ∀ fs : String → StationState, (∀ k, goodState (fs k)) →
      ∀ p ∈ pairs, lastMax (matchedOf p) → matchedOf p ≠ [] →
        saturated ((getData ex f pairs fs).fs (dirNameOf p)) (matchedOf p) := by
  induction pairs with
  | nil => intro fs hg p hp; simp at hp
  | cons q rest ih =>
    intro fs hg p hp hmax hne
    rcases q with ⟨c, o⟩
    rcases List.mem_cons.mp hp with hpq | hp2
    · subst hpq
      cases h : getDCPs c o with
      | error e => rw [matchedOf_error h] at hne; exact absurd rfl hne
      | ok m =>
        rw [matchedOf_ok h] at hmax hne ⊢
        rw [dirNameOf_ok h]
        have hcr := stationStep_nocrash ex f
          (fs (codestacaoStr (m.getLastD defaultDcp))) m (hg _)
        rw [getData_cons_ok ex f c o rest fs m h hcr]
        apply getData_preserves_saturated
        have hsat : saturated ((stationStep ex f
            (fs (codestacaoStr (m.getLastD defaultDcp))) m).state) m := by
          cases m with
          | nil => exact absurd rfl hne
          | cons d0 r2 => exact stationStep_saturates ex f _ d0 r2 (hg _) hmax
        simpa [updateFs] using hsat
    · cases h : getDCPs c o with
      | error e =>
        rw [getData_cons_error ex f c o rest fs e h]
        exact ih fs hg p hp2 hmax hne
      | ok m =>
        have hcr := stationStep_nocrash ex f
          (fs (codestacaoStr (m.getLastD defaultDcp))) m (hg _)
        rw [getData_cons_ok ex f c o rest fs m h hcr]
        exact ih _ (updateFs_good _ _ _ hg (stationStep_good _ _ _ _ (hg _))) p hp2 hmax hne

theorem getData_noop (ex : List String) (f : Bool)
    (pairs : List (String × FetchOutcome)) :
    ∀ fs : String → StationState,
      (∀ p ∈ pairs, matchedOf p ≠ [] → saturated (fs (dirNameOf p)) (matchedOf p)) →
      (getData ex f pairs fs).fs = fs ∧ countAppends (getData ex f pairs fs).trace = 0 := by
  induction pairs with
  | nil => intro fs hs; exact ⟨rfl, rfl⟩
  | cons q rest ih =>
    intro fs hs
    rcases q with ⟨c, o⟩
    cases h : getDCPs c o with
    | error e =>
      rw [getData_cons_error ex f c o rest fs e h]
      have hr := ih fs (fun p hp => hs p (List.mem_cons_of_mem _ hp))
      exact ⟨hr.1, by rw [countAppends_fetch_cons]; exact hr.2⟩
    | ok m =>
      have hne := getDCPs_ok_ne_nil h
      have hsat := hs (c, o) (List.mem_cons_self _ _) (by rwa [matchedOf_ok h])
      rw [matchedOf_ok h, dirNameOf_ok h] at hsat
      have hnoop := stationStep_noop ex f
        (fs (codestacaoStr (m.getLastD defaultDcp))) m hsat
      have hcr : (stationStep ex f
          (fs (codestacaoStr (m.getLastD defaultDcp))) m).crashed = false := by
        rw [hnoop]
      rw [getData_cons_ok ex f c o rest fs m h hcr, hnoop]
      rw [updateFs_self]
      have hr := ih fs (fun p hp => hs p (List.mem_cons_of_mem _ hp))
      refine ⟨hr.1, ?_⟩
      rw [countAppends_fetch_cons]
      simpa [countAppends] using hr.2

end Cemaden

namespace Cemaden

/-! ### Digit and delimiter-counting lemmas -/

theorem digitChar_isDigit (m : Nat) : (digitChar m).isDigit = true := by
  unfold digitChar
  have h : m % 10 < 10 := Nat.mod_lt _ (by omega)
  revert h
  generalize m % 10 = k
  intro h
  interval_cases k <;> decide

theorem natDigitsAux_isDigit (fuel : Nat) :
    ∀ n, ∀ c ∈ natDigitsAux fuel n, c.isDigit = true := by
  induction fuel with
  | zero => intro n c hc; simp [natDigitsAux] at hc
  | succ fuel ih =>
    intro n c hc
    rw [natDigitsAux] at hc
    by_cases h : n < 10
    · rw [if_pos h, List.mem_singleton] at hc
      subst hc
      exact digitChar_isDigit n
    · rw [if_neg h] at hc
      rcases List.mem_append.mp hc with h1 | h2
      · exact ih (n / 10) c h1
      · rw [List.mem_singleton] at h2
        subst h2
        exact digitChar_isDigit n

theorem natDigits_isDigit (n : Nat) : ∀ c ∈ natDigits n, c.isDigit = true :=
  natDigitsAux_isDigit (n + 1) n

theorem isDigit_ne_semi {c : Char} (h : c.isDigit = true) : c ≠ ';' := by
  intro hc; subst hc; simp at h

theorem isDigit_ne_newline {c : Char} (h : c.isDigit = true) : c ≠ '\n' := by
  intro hc; subst hc; simp at h

theorem countSemi_momentFormatLine (n : Nat) : countSemi (momentFormatLine n) = 0 := by
  unfold countSemi momentFormatLine
  rw [List.count_eq_zero]
  intro hmem
  exact isDigit_ne_semi (natDigits_isDigit n _ hmem) rfl

theorem countSemi_append (a b : String) : countSemi (a ++ b) = countSemi a + countSemi b := by
  unfold countSemi
  rw [String.data_append, List.count_append]

theorem countSemi_crlf : countSemi "\r\n" = 0 := by decide

theorem countSemi_semi : countSemi ";" = 1 := by decide

theorem countSemi_timestamp : countSemi "TIMESTAMP;" = 1 := by decide

theorem countSemi_joinAll (xs : List String) (h : ∀ x ∈ xs, countSemi x = 0) :
    countSemi (joinAll xs) = xs.length - 1 := by
  induction xs with
  | nil => rfl
  | cons x rest ih =>
    cases rest with
    | nil =>
      rw [show joinAll [x] = x ++ "\r\n" from rfl, countSemi_append,
        h x (List.mem_cons_self _ _), countSemi_crlf]
      rfl
    | cons y rest2 =>
      rw [show joinAll (x :: y :: rest2) = x ++ ";" ++ joinAll (y :: rest2) from rfl,
        countSemi_append, countSemi_append, h x (List.mem_cons_self _ _), countSemi_semi,
        ih (fun z hz => h z (List.mem_cons_of_mem _ hz))]
      simp only [List.length_cons]
      omega

/-! ### Output length and fetch count of a cycle -/

theorem getData_fetch_count (ex : List String) (f : Bool)
    (pairs : List (String × FetchOutcome)) :
    ∀ fs : String → StationState, (getData ex f pairs fs).crashed = false →
      countFetches (getData ex f pairs fs).trace = pairs.length := by
  induction pairs with
  | nil => intro fs _; rfl
  | cons q rest ih =>
    intro fs h
    rcases q with ⟨c, o⟩
    cases hg : getDCPs c o with
    | error e =>
      rw [getData_cons_error ex f c o rest fs e hg] at h ⊢
      rw [countFetches_fetch_cons, ih fs h]
      rfl
    | ok m =>
      by_cases hcr : (stationStep ex f (fs (codestacaoStr (m.getLastD defaultDcp))) m).crashed
      · exfalso
        simp only [getData, hg] at h
        rw [if_pos hcr] at h
        simp at h
      · rw [getData_cons_ok ex f c o rest fs m hg (by simpa using hcr)] at h ⊢
        rw [countFetches_fetch_cons, countFetches_append, stationStep_no_fetch, ih _ h]
        simp

theorem getData_output_count (ex : List String) (pairs : List (String × FetchOutcome)) :
    ∀ fs : String → StationState, (∀ k, goodState (fs k)) →
      (getData ex false pairs fs).output.length =
        pairs.countP (fun p => !(matchedOf p).isEmpty) := by
  induction pairs with
  | nil => intro fs _; rfl
  | cons q rest ih =>
    intro fs hg
    rcases q with ⟨c, o⟩
    cases h : getDCPs c o with
    | error e =>
      rw [getData_cons_error ex false c o rest fs e h, List.countP_cons]
      have hp : (matchedOf (c, o)).isEmpty = true := by rw [matchedOf_error h]; rfl
      simp [hp, ih fs hg]
    | ok m =>
      have hcr := stationStep_nocrash ex false (fs (codestacaoStr (m.getLastD defaultDcp))) m (hg _)
      rw [getData_cons_ok ex false c o rest fs m h hcr, List.countP_cons, stationStep_threw]
      have hp : (matchedOf (c, o)).isEmpty = false := by
        rw [matchedOf_ok h]
        have := getDCPs_ok_ne_nil h
        cases m with
        | nil => exact absurd rfl this
        | cons d0 r => rfl
      simp [hp, ih _ (updateFs_good _ _ _ hg (stationStep_good _ _ _ _ (hg _)))]

/-! ### Sequences of saves on one station -/

theorem runSaves_good (ex : List String) (batches : List (List Dcp)) :
    ∀ s0 : StationState, goodState s0 → goodState (runSaves ex s0 batches) := by
  induction batches with
  | nil => intro s0 h; exact h
  | cons b rest ih =>
    intro s0 h
    exact ih _ (stationStep_good ex false s0 b h)

end Cemaden

namespace Cemaden

/-! ### File contents after `openFile` -/

theorem lookupFile_append_self (files : List (String × List String)) (fileName : String)
    (content : List String) (h : lookupFile fileName files = none) :
    lookupFile fileName (files ++ [(fileName, content)]) = some content := by
  induction files with
  | nil => simp [lookupFile]
  | cons p rest ih =>
    rcases p with ⟨n, c0⟩
    by_cases hn : n = fileName
    · simp [lookupFile, hn] at h
    · simp only [List.cons_append, lookupFile, if_neg hn] at h ⊢
      exact ih h

theorem lookupFile_updateFile (files : List (String × List String)) (fileName : String)
    (content c : List String) (h : lookupFile fileName files = some c) :
    lookupFile fileName (updateFile fileName content files) = some content := by
  induction files with
  | nil => simp [lookupFile] at h
  | cons p rest ih =>
    rcases p with ⟨n, c0⟩
    by_cases hn : n = fileName
    · simp [updateFile, lookupFile, hn]
    · simp only [updateFile, if_neg hn, lookupFile] at h ⊢
      exact ih h

theorem openFile_new_content (files : List (String × List String))
    (fileName defaultData : String) (lines : List String)
    (h : lookupFile fileName files = none) :
    lookupFile fileName (openFile files fileName defaultData lines).1 =
      some (defaultData :: lines) := by
  simp only [openFile, h]
  exact lookupFile_append_self files fileName _ h

theorem openFile_existing_content (files : List (String × List String))
    (fileName defaultData : String) (lines : List String) (c : List String)
    (h : lookupFile fileName files = some c) (hne : c ≠ []) :
    lookupFile fileName (openFile files fileName defaultData lines).1 =
      some (c ++ lines) := by
  simp only [openFile, h]
  rw [if_neg (by simpa [List.isEmpty_iff] using hne)]
  exact lookupFile_updateFile files fileName _ c h

theorem numFields_buildLine_header (st : String) (ex : List String) (d0 d : Dcp)
    (hk : buildKeys d ex = buildKeys d0 ex)
    (hfree : ∀ k ∈ buildKeys d0 ex, countSemi k = 0 ∧ countSemi (renderVal d k) = 0) :
    numFields (buildLine d (buildKeys d ex)) = numFields (buildHeader st (buildKeys d0 ex)) := by
  rw [hk]
  unfold numFields buildLine buildHeader
  have h1 : ∀ x ∈ (buildKeys d0 ex).reverse.map (renderVal d), countSemi x = 0 := by
    intro x hx
    rcases List.mem_map.mp hx with ⟨k, hkmem, rfl⟩
    exact (hfree k (List.mem_reverse.mp hkmem)).2
  have h2 : ∀ x ∈ (buildKeys d0 ex).reverse, countSemi x = 0 := fun x hx =>
    (hfree x (List.mem_reverse.mp hx)).1
  simp only [countSemi_append]
  rw [countSemi_momentFormatLine, countSemi_semi, countSemi_timestamp,
    countSemi_joinAll _ h1, countSemi_joinAll _ h2,
    List.length_map, List.length_reverse]

end Cemaden

namespace Cemaden

/-! ### Claim C1 -/

theorem countAppends_watermark_cons (a : String) (t : Nat) (tr : List Event) :
    countAppends (Event.writeWatermark a t :: tr) = countAppends tr := by
  simp [countAppends, List.countP_cons]

theorem openFile_no_append_of_nil (files : List (String × List String))
    (fileName defaultData : String) :
    countAppends (openFile files fileName defaultData []).2 = 0 := by
  unfold openFile
  cases h : lookupFile fileName files with
  | none => simp [countAppends]
  | some c => by_cases hc : c.isEmpty <;> simp [hc, countAppends]

/-- Counterexample to C1: with an existing watermark `10` and one filtered
reading at `20`, a simulated failure of the line-append write still leaves
the persisted watermark at `20` (`saveLastDate` runs at line 292, before
the append loop of lines 309-312) and no data line is appended, so the
watermark after the cycle differs from the watermark before it. -/
theorem claim1_counterexample :
    (stationStep [] true ⟨true, some 10, [("old", ["h"])]⟩
        [⟨[("codestacao", some "S1")], 20⟩]).state.lastDate = some 20 ∧
      countAppends (stationStep [] true ⟨true, some 10, [("old", ["h"])]⟩
        [⟨[("codestacao", some "S1")], 20⟩]).events = 0 ∧
      ¬ ((some 20 : Option Nat) = some 10) := by decide

/-- C1 (amended): the watermark write is issued BEFORE the data lines are
appended. For every save of a non-empty filtered batch in which the
line-append write fails, the persisted watermark still advances to the
timestamp of the last filtered reading (it does not stay at its pre-cycle
value), and zero data lines are appended. -/
theorem claim1_watermark_written_before_appends (ex : List String) (s : StationState)
    (w : Nat) (m : List Dcp) (hdir : s.dirExists = true) (hw : s.lastDate = some w)
    (hne : dedupFilter m w ≠ []) :
    (stationStep ex true s m).state.lastDate =
        some ((dedupFilter m w).getLastD defaultDcp).dataHora ∧
      countAppends (stationStep ex true s m).events = 0 := by
  rcases s with ⟨dir, ld, fl⟩
  cases m with
  | nil => exact absurd rfl hne
  | cons d0 rest =>
    replace hdir : dir = true := hdir
    replace hw : ld = some w := hw
    subst hdir
    subst hw
    rw [stationStep_some, if_neg (by simpa [List.isEmpty_iff] using hne)]
    constructor
    · show some ((dedupFilter (d0 :: rest) w).getLastD d0).dataHora = _
      rw [getLastD_irrel d0 defaultDcp hne]
    · simp [writeBatch, countAppends_watermark_cons, openFile_no_append_of_nil]

/-- Witness for the amended C1 at a concrete state and batch. -/
theorem claim1_watermark_written_before_appends_witness :
    (⟨true, some 11, [("g", ["hd"])]⟩ : StationState).dirExists = true ∧
      (⟨true, some 11, [("g", ["hd"])]⟩ : StationState).lastDate = some 11 ∧
      dedupFilter [⟨[("codestacao", some "S3")], 31⟩] 11 ≠ [] ∧
      ((stationStep [] true ⟨true, some 11, [("g", ["hd"])]⟩
          [⟨[("codestacao", some "S3")], 31⟩]).state.lastDate =
          some ((dedupFilter [⟨[("codestacao", some "S3")], 31⟩] 11).getLastD
            defaultDcp).dataHora ∧
        countAppends (stationStep [] true ⟨true, some 11, [("g", ["hd"])]⟩
          [⟨[("codestacao", some "S3")], 31⟩]).events = 0) :=
  ⟨rfl, rfl, by decide,
    claim1_watermark_written_before_appends [] ⟨true, some 11, [("g", ["hd"])]⟩ 11
      [⟨[("codestacao", some "S3")], 31⟩] rfl rfl (by decide)⟩

/-! ### Claim C2 -/

/-- C2 (confirmed): for every list of readings and existing watermark, the
deduplication filter returns exactly the readings whose timestamp is
strictly greater than the watermark (full `Nat` timestamp resolution), it
is a subsequence of the input (input order preserved), and every reading
whose timestamp is at or before the watermark is excluded. -/
theorem claim2_dedup_filter_exact (readings : List Dcp) (w : Nat) :
    dedupFilter readings w = readings.filter (fun d => decide (w < d.dataHora)) ∧
      (dedupFilter readings w).Sublist readings ∧
      ∀ d ∈ readings, d.dataHora ≤ w → d ∉ dedupFilter readings w := by
  refine ⟨dedupFilter_eq_filter readings w, ?_, ?_⟩
  · rw [dedupFilter_eq_filter]
    exact List.filter_sublist readings
  · intro d _ hle hmem
    have := (mem_dedupFilter.mp hmem).2
    omega

/-! ### Claim C3 -/

/-- Counterexample to C3: a transport error while fetching for station `S1`
does not abort the cycle and does not propagate — the per-station `catch`
(lines 342-348) swallows it and the loop continues: station `S2` is still
processed (its batch is in the resolved output and its directory is
created). -/
theorem claim3_counterexample :
    (getData [] false
        [("S1", FetchOutcome.transportError),
         ("S2", FetchOutcome.ok [⟨[("codestacao", some "S2")], 7⟩])]
        (fun _ => initState)).output = [[⟨[("codestacao", some "S2")], 7⟩]] ∧
      (getData [] false
        [("S1", FetchOutcome.transportError),
         ("S2", FetchOutcome.ok [⟨[("codestacao", some "S2")], 7⟩])]
        (fun _ => initState)).crashed = false ∧
      ((getData [] false
        [("S1", FetchOutcome.transportError),
         ("S2", FetchOutcome.ok [⟨[("codestacao", some "S2")], 7⟩])]
        (fun _ => initState)).fs "S2").dirExists = true := by decide

/-- C3 (amended): a station whose fetch fails with a transport error is
skipped exactly like a station with no matching readings: the error is
caught at the per-station boundary, the filesystem and the output of the
remaining stations are unaffected, and the error does not propagate (the
cycle's result is that of the remaining stations, with one more fetch
event). -/
theorem claim3_transport_error_skips_station (ex : List String) (f : Bool)
    (c c2 : String) (payload : List Dcp) (rest : List (String × FetchOutcome))
    (fs : String → StationState) (hmatch : matchStation payload c2 = []) :
    getData ex f ((c, FetchOutcome.transportError) :: rest) fs =
      ⟨(getData ex f rest fs).fs, (getData ex f rest fs).output,
       Event.fetch c :: (getData ex f rest fs).trace, (getData ex f rest fs).crashed⟩ ∧
    getData ex f ((c2, FetchOutcome.ok payload) :: rest) fs =
      ⟨(getData ex f rest fs).fs, (getData ex f rest fs).output,
       Event.fetch c2 :: (getData ex f rest fs).trace, (getData ex f rest fs).crashed⟩ := by
  constructor
  · exact getData_cons_error ex f c _ rest fs JsError.transport rfl
  · refine getData_cons_error ex f c2 _ rest fs (JsError.disabledDCP c2) ?_
    simp [getDCPs, hmatch]

/-- Witness for the amended C3 at a concrete configuration. -/
theorem claim3_transport_error_skips_station_witness :
    matchStation [⟨[("codestacao", some "S9")], 3⟩] "S5" = [] ∧
      (getData [] false [("S1", FetchOutcome.transportError)] (fun _ => initState) =
        ⟨(getData [] false [] (fun _ => initState)).fs,
         (getData [] false [] (fun _ => initState)).output,
         Event.fetch "S1" :: (getData [] false [] (fun _ => initState)).trace,
         (getData [] false [] (fun _ => initState)).crashed⟩ ∧
      getData [] false [("S5", FetchOutcome.ok [⟨[("codestacao", some "S9")], 3⟩])]
          (fun _ => initState) =
        ⟨(getData [] false [] (fun _ => initState)).fs,
         (getData [] false [] (fun _ => initState)).output,
         Event.fetch "S5" :: (getData [] false [] (fun _ => initState)).trace,
         (getData [] false [] (fun _ => initState)).crashed⟩) :=
  ⟨by decide,
    claim3_transport_error_skips_station [] false "S1" "S5"
      [⟨[("codestacao", some "S9")], 3⟩] [] (fun _ => initState) (by decide)⟩

/-! ### Claim C4 -/

/-- Counterexample to C4: a cycle over two configured stations issues two
HTTP fetches (`getDCPs` calls `client.get` once per loop iteration,
lines 199-201 and 250), not one. -/
theorem claim4_counterexample :
    countFetches (getData [] false
        [("S1", FetchOutcome.ok [⟨[("codestacao", some "S1")], 5⟩]),
         ("S2", FetchOutcome.ok [⟨[("codestacao", some "S2")], 6⟩])]
        (fun _ => initState)).trace = 2 ∧ (2 : Nat) ≠ 1 := by decide

/-- C4 (amended): during one ingestion cycle that does not crash, the remote
endpoint is fetched exactly once PER CONFIGURED STATION (once per loop
iteration), each station matching against the payload of its own fetch. -/
theorem claim4_fetch_once_per_station (ex : List String) (f : Bool)
    (pairs : List (String × FetchOutcome)) (fs : String → StationState)
    (h : (getData ex f pairs fs).crashed = false) :
    countFetches (getData ex f pairs fs).trace = pairs.length :=
  getData_fetch_count ex f pairs fs h

/-- Witness for the amended C4 at a concrete configuration. -/
theorem claim4_fetch_once_per_station_witness :
    (getData [] false [("S1", FetchOutcome.ok [⟨[("codestacao", some "S1")], 2⟩])]
        (fun _ => initState)).crashed = false ∧
      countFetches (getData [] false
        [("S1", FetchOutcome.ok [⟨[("codestacao", some "S1")], 2⟩])]
        (fun _ => initState)).trace =
        ([("S1", FetchOutcome.ok [⟨[("codestacao", some "S1")], 2⟩])] :
          List (String × FetchOutcome)).length :=
  ⟨by decide,
    claim4_fetch_once_per_station [] false
      [("S1", FetchOutcome.ok [⟨[("codestacao", some "S1")], 2⟩])]
      (fun _ => initState) (by decide)⟩

end Cemaden

namespace Cemaden

/-! ### Claim C5 -/

/-- C5 (confirmed): along every sequence of save operations on a station that
starts from a well-formed directory state, the persisted watermark is
monotonically non-decreasing: its value after save `n + 1` is at or above
its value after save `n` (an absent watermark is below everything), so it
is never set to a timestamp older than its current value. -/
theorem claim5_watermark_monotone (ex : List String) (s0 : StationState)
    (batches : List (List Dcp)) (n : Nat) (hg : goodState s0) :
    optLe (runSaves ex s0 (batches.take n)).lastDate
      (runSaves ex s0 (batches.take (n + 1))).lastDate := by
  rw [List.take_succ]
  unfold runSaves
  rw [List.foldl_append]
  cases batches[n]? with
  | none => exact optLe_refl _
  | some b => exact stationStep_mono ex false _ b (runSaves_good ex (batches.take n) s0 hg)

/-- Witness for C5 at a concrete state and save sequence. -/
theorem claim5_watermark_monotone_witness :
    goodState initState ∧
      optLe (runSaves ["x"] initState
          ([[⟨[("codestacao", some "S4")], 6⟩]].take 0)).lastDate
        (runSaves ["x"] initState
          ([[⟨[("codestacao", some "S4")], 6⟩]].take 1)).lastDate :=
  ⟨by decide,
    claim5_watermark_monotone ["x"] initState [[⟨[("codestacao", some "S4")], 6⟩]] 0
      (by decide)⟩

/-! ### Claim C6 -/

/-- C6 (confirmed): running the ingestion cycle twice with the same
per-station fetch outcomes (under the spec's assumption that each matched
batch is ordered so its last reading carries the maximal timestamp, and
starting from well-formed directory states), the second cycle leaves every
station directory — data files and watermark — exactly as the first cycle
left it, and appends zero lines. -/
theorem claim6_cycle_idempotent (ex : List String)
    (pairs : List (String × FetchOutcome)) (fs0 : String → StationState)
    (hg : ∀ k, goodState (fs0 k)) (hmax : ∀ p ∈ pairs, lastMax (matchedOf p)) :
    (getData ex false pairs (getData ex false pairs fs0).fs).fs =
        (getData ex false pairs fs0).fs ∧
      countAppends (getData ex false pairs (getData ex false pairs fs0).fs).trace = 0 := by
  apply getData_noop
  intro p hp hne
  exact getData_establishes ex false pairs fs0 hg p hp (hmax p hp) hne

/-- Witness for C6 at a concrete configuration: one station, two readings. -/
theorem claim6_cycle_idempotent_witness :
    (∀ k : String, goodState ((fun _ => initState) k)) ∧
      (∀ p ∈ [("S1", FetchOutcome.ok
          [⟨[("codestacao", some "S1"), ("chuva", some "2")], 4⟩,
           ⟨[("codestacao", some "S1"), ("chuva", none)], 9⟩])],
        lastMax (matchedOf p)) ∧
      ((getData [] false
          [("S1", FetchOutcome.ok
            [⟨[("codestacao", some "S1"), ("chuva", some "2")], 4⟩,
             ⟨[("codestacao", some "S1"), ("chuva", none)], 9⟩])]
          (getData [] false
            [("S1", FetchOutcome.ok
              [⟨[("codestacao", some "S1"), ("chuva", some "2")], 4⟩,
               ⟨[("codestacao", some "S1"), ("chuva", none)], 9⟩])]
            (fun _ => initState)).fs).fs =
          (getData [] false
            [("S1", FetchOutcome.ok
              [⟨[("codestacao", some "S1"), ("chuva", some "2")], 4⟩,
               ⟨[("codestacao", some "S1"), ("chuva", none)], 9⟩])]
            (fun _ => initState)).fs ∧
        countAppends (getData [] false
          [("S1", FetchOutcome.ok
            [⟨[("codestacao", some "S1"), ("chuva", some "2")], 4⟩,
             ⟨[("codestacao", some "S1"), ("chuva", none)], 9⟩])]
          (getData [] false
            [("S1", FetchOutcome.ok
              [⟨[("codestacao", some "S1"), ("chuva", some "2")], 4⟩,
               ⟨[("codestacao", some "S1"), ("chuva", none)], 9⟩])]
            (fun _ => initState)).fs).trace = 0) :=
  ⟨fun _ => goodState_initState, by decide,
    claim6_cycle_idempotent []
      [("S1", FetchOutcome.ok
        [⟨[("codestacao", some "S1"), ("chuva", some "2")], 4⟩,
         ⟨[("codestacao", some "S1"), ("chuva", none)], 9⟩])]
      (fun _ => initState) (fun _ => goodState_initState) (by decide)⟩

/-! ### Claim C7 -/

/-- Counterexample to C7: the header of a new file is built from the FIRST
record of the batch (line 299/321) but each appended line is formatted from
the record's OWN non-excluded keys (line 310/332), so a batch whose second
record carries an extra key (`nivel`) produces a file whose header has two
field names (`TIMESTAMP;chuva`) while the line appended for that record has
three delimited values — the save really appends that misaligned line. -/
theorem claim7_counterexample :
    lookupFile (buildFileName ⟨[("codestacao", some "S1"), ("chuva", some "2"),
        ("nivel", some "3")], 20⟩)
      (stationStep ["codestacao"] false initState
        [⟨[("codestacao", some "S1"), ("chuva", some "1")], 10⟩,
         ⟨[("codestacao", some "S1"), ("chuva", some "2"), ("nivel", some "3")], 20⟩]
        ).state.dataFiles =
      some [buildHeader "S1" (buildKeys
              ⟨[("codestacao", some "S1"), ("chuva", some "1")], 10⟩ ["codestacao"]),
            buildLine ⟨[("codestacao", some "S1"), ("chuva", some "1")], 10⟩
              (buildKeys ⟨[("codestacao", some "S1"), ("chuva", some "1")], 10⟩
                ["codestacao"]),
            buildLine ⟨[("codestacao", some "S1"), ("chuva", some "2"),
                ("nivel", some "3")], 20⟩
              (buildKeys ⟨[("codestacao", some "S1"), ("chuva", some "2"),
                ("nivel", some "3")], 20⟩ ["codestacao"])] ∧
      numFields (buildLine ⟨[("codestacao", some "S1"), ("chuva", some "2"),
          ("nivel", some "3")], 20⟩
        (buildKeys ⟨[("codestacao", some "S1"), ("chuva", some "2"),
          ("nivel", some "3")], 20⟩ ["codestacao"])) = 3 ∧
      numFields (buildHeader "S1" (buildKeys
        ⟨[("codestacao", some "S1"), ("chuva", some "1")], 10⟩ ["codestacao"])) = 2 ∧
      (3 : Nat) ≠ 2 := by decide

/-- C7 (amended): opening a file that does not yet exist writes the header
exactly once, as the first chunk, before the appended lines; opening an
existing non-empty file appends the lines without writing another header;
but each data line is formatted from the record's OWN non-excluded keys, so
only for records whose non-excluded key list equals that of the record the
header was built from (keys and values free of the `;` delimiter) does a
data line have exactly as many delimited values as the header has field
names, with the i-th value belonging to the i-th header key; a record with
a differing key set appends a misaligned line. -/
theorem claim7_header_once_and_aligned (files1 files2 : List (String × List String))
    (fileName defaultData : String) (lines : List String) (c : List String)
    (st : String) (ex : List String) (d0 d : Dcp)
    (habs : lookupFile fileName files1 = none)
    (hpres : lookupFile fileName files2 = some c) (hcne : c ≠ [])
    (hk : buildKeys d ex = buildKeys d0 ex)
    (hfree : ∀ k ∈ buildKeys d0 ex, countSemi k = 0 ∧ countSemi (renderVal d k) = 0) :
    lookupFile fileName (openFile files1 fileName defaultData lines).1 =
        some (defaultData :: lines) ∧
      lookupFile fileName (openFile files2 fileName defaultData lines).1 =
        some (c ++ lines) ∧
      numFields (buildLine d (buildKeys d ex)) =
        numFields (buildHeader st (buildKeys d0 ex)) ∧
      buildLine d (buildKeys d ex) =
        momentFormatLine d.dataHora ++ ";" ++
          joinAll ((buildKeys d0 ex).reverse.map (renderVal d)) :=
  ⟨openFile_new_content files1 fileName defaultData lines habs,
   openFile_existing_content files2 fileName defaultData lines c hpres hcne,
   numFields_buildLine_header st ex d0 d hk hfree,
   by rw [hk]; rfl⟩

/-- Witness for C7 at a concrete file map and record. -/
theorem claim7_header_once_and_aligned_witness :
    lookupFile "S7_10" ([] : List (String × List String)) = none ∧
      lookupFile "S7_10" [("S7_10", ["HD", "x"])] = some ["HD", "x"] ∧
      (["HD", "x"] : List String) ≠ [] ∧
      buildKeys ⟨[("codestacao", some "S7"), ("chuva", some "3")], 10⟩ ["codestacao"] =
        buildKeys ⟨[("codestacao", some "S7"), ("chuva", some "3")], 10⟩ ["codestacao"] ∧
      (∀ k ∈ buildKeys ⟨[("codestacao", some "S7"), ("chuva", some "3")], 10⟩ ["codestacao"],
        countSemi k = 0 ∧
          countSemi (renderVal ⟨[("codestacao", some "S7"), ("chuva", some "3")], 10⟩ k) = 0) ∧
      (lookupFile "S7_10" (openFile [] "S7_10" "HD" ["ln"]).1 = some ("HD" :: ["ln"]) ∧
        lookupFile "S7_10" (openFile [("S7_10", ["HD", "x"])] "S7_10" "HD" ["ln"]).1 =
          some (["HD", "x"] ++ ["ln"]) ∧
        numFields (buildLine ⟨[("codestacao", some "S7"), ("chuva", some "3")], 10⟩
            (buildKeys ⟨[("codestacao", some "S7"), ("chuva", some "3")], 10⟩ ["codestacao"])) =
          numFields (buildHeader "S7"
            (buildKeys ⟨[("codestacao", some "S7"), ("chuva", some "3")], 10⟩ ["codestacao"])) ∧
        buildLine ⟨[("codestacao", some "S7"), ("chuva", some "3")], 10⟩
            (buildKeys ⟨[("codestacao", some "S7"), ("chuva", some "3")], 10⟩ ["codestacao"]) =
          momentFormatLine (⟨[("codestacao", some "S7"), ("chuva", some "3")], 10⟩ : Dcp).dataHora
            ++ ";" ++
            joinAll ((buildKeys ⟨[("codestacao", some "S7"), ("chuva", some "3")], 10⟩
              ["codestacao"]).reverse.map
              (renderVal ⟨[("codestacao", some "S7"), ("chuva", some "3")], 10⟩))) :=
  ⟨rfl, by decide, by decide, rfl, by decide,
    claim7_header_once_and_aligned [] [("S7_10", ["HD", "x"])] "S7_10" "HD" ["ln"]
      ["HD", "x"] "S7" ["codestacao"]
      ⟨[("codestacao", some "S7"), ("chuva", some "3")], 10⟩
      ⟨[("codestacao", some "S7"), ("chuva", some "3")], 10⟩
      rfl (by decide) (by decide) rfl (by decide)⟩

end Cemaden

namespace Cemaden

/-! ### Claim C8 -/

/-- C8 (confirmed): on the first-ever ingestion for a station (its directory
and watermark do not yet exist), every matched reading is written: the
save creates exactly one data file, named from the `codestacao` and the
timestamp of the LAST reading, whose content is the header (built from the
first reading's non-excluded keys) followed by one formatted line per
reading in order; the watermark file is created holding the last reading's
timestamp; nothing is thrown. -/
theorem claim8_first_run_save (ex : List String) (d0 : Dcp) (rest : List Dcp) :
    stationStep ex false initState (d0 :: rest) =
      ⟨⟨true, some ((d0 :: rest).getLastD d0).dataHora,
          [(buildFileName ((d0 :: rest).getLastD d0),
            buildHeader (codestacaoStr ((d0 :: rest).getLastD d0)) (buildKeys d0 ex) ::
              (d0 :: rest).map (fun dcp => buildLine dcp (buildKeys dcp ex)))]⟩,
        Event.writeWatermark (codestacaoStr ((d0 :: rest).getLastD d0))
            ((d0 :: rest).getLastD d0).dataHora ::
          Event.writeHeader (buildFileName ((d0 :: rest).getLastD d0))
            (buildHeader (codestacaoStr ((d0 :: rest).getLastD d0)) (buildKeys d0 ex)) ::
          ((d0 :: rest).map (fun dcp => buildLine dcp (buildKeys dcp ex))).map
            (Event.appendLine (buildFileName ((d0 :: rest).getLastD d0))),
        false, false⟩ := rfl

/-! ### Claim C9 -/

/-- Counterexample to C9: a successful cycle that saves one station's batch
of three readings appends three data lines, yet the CLI wrapper prints
`Saved 1 DCPs` — `dcps.length` counts station batches in `outputDCP`, not
saved records — so the printed count is not the number of saved records. -/
theorem claim9_counterexample :
    exampleCemaden (Except.ok (getData [] false
        [("S1", FetchOutcome.ok [⟨[("codestacao", some "S1")], 1⟩,
          ⟨[("codestacao", some "S1")], 2⟩, ⟨[("codestacao", some "S1")], 3⟩])]
        (fun _ => initState)).output) = ⟨some 1, 0⟩ ∧
      countAppends (getData [] false
        [("S1", FetchOutcome.ok [⟨[("codestacao", some "S1")], 1⟩,
          ⟨[("codestacao", some "S1")], 2⟩, ⟨[("codestacao", some "S1")], 3⟩])]
        (fun _ => initState)).trace = 3 ∧ (1 : Nat) ≠ 3 := by decide

/-- C9 (amended): on a resolved cycle the CLI wrapper prints the number of
STATION BATCHES in the resolved list — the number of stations whose fetch
matched at least one reading — and exits 0; on a rejected cycle it prints
the error and exits 1. The printed count is not the number of saved
records. -/
theorem claim9_cli_prints_batch_count (ex : List String)
    (pairs : List (String × FetchOutcome)) (fs : String → StationState)
    (hg : ∀ k, goodState (fs k)) :
    exampleCemaden (Except.ok (getData ex false pairs fs).output) =
        ⟨some (pairs.countP (fun p => !(matchedOf p).isEmpty)), 0⟩ ∧
      ∀ e, exampleCemaden (Except.error e) = ⟨none, 1⟩ := by
  refine ⟨?_, fun e => rfl⟩
  show CliResult.mk (some (getData ex false pairs fs).output.length) 0 = _
  rw [getData_output_count ex pairs fs hg]

/-- Witness for the amended C9 at a concrete configuration. -/
theorem claim9_cli_prints_batch_count_witness :
    (∀ k : String, goodState ((fun _ => initState) k)) ∧
      (exampleCemaden (Except.ok (getData [] false
          [("S1", FetchOutcome.ok [⟨[("codestacao", some "S1")], 1⟩,
            ⟨[("codestacao", some "S1")], 2⟩]),
           ("S9", FetchOutcome.transportError)]
          (fun _ => initState)).output) =
        ⟨some (([("S1", FetchOutcome.ok [⟨[("codestacao", some "S1")], 1⟩,
            ⟨[("codestacao", some "S1")], 2⟩]),
           ("S9", FetchOutcome.transportError)] :
            List (String × FetchOutcome)).countP (fun p => !(matchedOf p).isEmpty)), 0⟩ ∧
        ∀ e, exampleCemaden (Except.error e) = ⟨none, 1⟩) :=
  ⟨fun _ => goodState_initState,
    claim9_cli_prints_batch_count []
      [("S1", FetchOutcome.ok [⟨[("codestacao", some "S1")], 1⟩,
        ⟨[("codestacao", some "S1")], 2⟩]),
       ("S9", FetchOutcome.transportError)]
      (fun _ => initState) (fun _ => goodState_initState)⟩

/-! ### Claim C10 -/

/-- Counterexample to C10: a reading whose only key is the timestamp key
`dataHora`, with an empty excluded-fields list, satisfies the claim's
hypothesis (every non-timestamp key is excluded, vacuously), yet its
formatted line is the timestamp, `;`, the raw `dataHora` value and the
`\r\n` terminator — not the timestamp followed by a single `;` with no
terminator. -/
theorem claim10_counterexample :
    (∀ k ∈ (Dcp.mk [("dataHora", some "t")] 5).entries.map Prod.fst,
        k ≠ "dataHora" → k ∈ ([] : List String)) ∧
      buildLine ⟨[("dataHora", some "t")], 5⟩
          (buildKeys ⟨[("dataHora", some "t")], 5⟩ []) =
        momentFormatLine 5 ++ ";" ++ "t" ++ "\r\n" ∧
      buildLine ⟨[("dataHora", some "t")], 5⟩
          (buildKeys ⟨[("dataHora", some "t")], 5⟩ []) ≠
        momentFormatLine 5 ++ ";" := by decide

/-- C10 (amended): for every reading whose keys — INCLUDING the timestamp key
`dataHora` — are all listed in the excluded-fields configuration (so that
`buildKeys` is empty), the formatted data line is exactly the formatted
timestamp followed by a single `;`, the header is exactly `TIMESTAMP;`,
and the line contains no newline, hence no line terminator. -/
theorem claim10_all_excluded_line_shape (st : String) (ex : List String) (d : Dcp)
    (h : buildKeys d ex = []) :
    buildLine d (buildKeys d ex) = momentFormatLine d.dataHora ++ ";" ∧
      buildHeader st (buildKeys d ex) = "TIMESTAMP;" ∧
      ∀ ch ∈ (buildLine d (buildKeys d ex)).data, ch ≠ '\n' := by
  have hline : buildLine d (buildKeys d ex) = momentFormatLine d.dataHora ++ ";" := by
    rw [h]
    unfold buildLine
    rw [show (([] : List String).reverse.map (renderVal d)) = [] from rfl,
      show joinAll [] = "" from rfl, String.append_empty]
  have hheader : buildHeader st (buildKeys d ex) = "TIMESTAMP;" := by
    rw [h]
    unfold buildHeader
    rw [show joinAll ([] : List String).reverse = "" from rfl, String.append_empty]
  refine ⟨hline, hheader, ?_⟩
  rw [hline]
  intro ch hch
  rw [String.data_append] at hch
  rcases List.mem_append.mp hch with h1 | h2
  · exact isDigit_ne_newline (natDigits_isDigit d.dataHora ch h1)
  · have hch2 : ch = ';' := by
      rw [show (";" : String).data = [';'] from rfl, List.mem_singleton] at h2
      exact h2
    subst hch2
    decide

/-- Witness for the amended C10 at a concrete record and exclusion list. -/
theorem claim10_all_excluded_line_shape_witness :
    buildKeys ⟨[("codestacao", some "S8"), ("dataHora", some "t"), ("chuva", some "1")], 8⟩
        ["codestacao", "dataHora", "chuva"] = [] ∧
      (buildLine ⟨[("codestacao", some "S8"), ("dataHora", some "t"), ("chuva", some "1")], 8⟩
          (buildKeys ⟨[("codestacao", some "S8"), ("dataHora", some "t"),
            ("chuva", some "1")], 8⟩ ["codestacao", "dataHora", "chuva"]) =
          momentFormatLine 8 ++ ";" ∧
        buildHeader "X"
          (buildKeys ⟨[("codestacao", some "S8"), ("dataHora", some "t"),
            ("chuva", some "1")], 8⟩ ["codestacao", "dataHora", "chuva"]) = "TIMESTAMP;" ∧
        ∀ ch ∈ (buildLine ⟨[("codestacao", some "S8"), ("dataHora", some "t"),
            ("chuva", some "1")], 8⟩
          (buildKeys ⟨[("codestacao", some "S8"), ("dataHora", some "t"),
            ("chuva", some "1")], 8⟩ ["codestacao", "dataHora", "chuva"])).data, ch ≠ '\n') :=
  ⟨by decide,
    claim10_all_excluded_line_shape "X" ["codestacao", "dataHora", "chuva"]
      ⟨[("codestacao", some "S8"), ("dataHora", some "t"), ("chuva", some "1")], 8⟩
      (by decide)⟩

end Cemaden
